import Mathlib

/-!
Verification development for the news-aggregator bot
(`bot.py`, `news_utils.py`, `scheduler.py`).

The Python code is shallowly embedded: dictionaries holding news items
become the `News` structure, Python string primitives (`str.lower`,
`str.strip`, the `in` substring test, `int(...)`, `str.split`) become
executable Lean functions over the character lists of the strings, and
wall-clock `datetime` values become the explicit `PyDateTime` structure
(day index with Monday = 0 at day 0, plus microseconds since midnight).
Network-bound fetchers are parameters of the functions that call them,
so every theorem quantifies over whatever the adapters return.
-/

namespace NewsBot

/-- Embedding of Python `str.lower` on a single character: ASCII `A`-`Z`
and Cyrillic `А`-`Я`/`Ё` (the alphabets occurring in this code base) are
mapped to their lowercase forms, every other character is unchanged. -/
def pyCharLower (c : Char) : Char :=
  if 'A' ≤ c ∧ c ≤ 'Z' then Char.ofNat (c.toNat + 32)
  else if 'А' ≤ c ∧ c ≤ 'Я' then Char.ofNat (c.toNat + 32)
  else if c = 'Ё' then 'ё'
  else c

/-- Embedding of Python `str.lower`. -/
def pyLower (s : String) : String := ⟨s.data.map pyCharLower⟩

/-- Default whitespace stripped by Python `str.strip`. -/
def isPySpace (c : Char) : Bool :=
  c = ' ' || c = '\t' || c = '\n' || c = '\r' || c = '\x0b' || c = '\x0c'

/-- Embedding of Python `str.strip`: drop whitespace from both ends. -/
def pyStrip (s : String) : String :=
  ⟨((s.data.dropWhile isPySpace).reverse.dropWhile isPySpace).reverse⟩

/-- `listIsPre a b` holds when `a` is a leading segment of `b`. -/
def listIsPre : List Char → List Char → Bool
  | [], _ => true
  | _ :: _, [] => false
  | a :: as, b :: bs => a = b && listIsPre as bs

/-- `hasSub needle hay`: `needle` occurs contiguously inside `hay`. -/
def hasSub (needle : List Char) : List Char → Bool
  | [] => needle.isEmpty
  | c :: rest => listIsPre needle (c :: rest) || hasSub needle rest

/-- Embedding of the Python substring test `needle in hay`. -/
def pyIn (needle hay : String) : Bool := hasSub needle.data hay.data

/-- Embedding of Python `s.startswith(p)`. -/
def pyStartswith (s p : String) : Bool := listIsPre p.data s.data

/-- A news item as built by the fetchers in `news_utils.py`: the keys of
the Python dict become string fields. -/
structure News where
  title : String
  description : String
  url : String
  date : String
  source : String
  language : String
deriving DecidableEq, Repr

/-- `NewsFilter.keywords_blacklist`: the fixed promotional blacklist. -/
def keywords_blacklist : List String :=
  ["реклама", "advertisement", "sponsored", "промо",
   "акция", "скидка", "sale", "discount"]

/-- The text `filter_news` matches against: lowered title and lowered
description joined by one space, as the Python format string builds it. -/
def newsText (n : News) : String :=
  pyLower n.title ++ " " ++ pyLower n.description

/-- The blacklist test of `NewsFilter.filter_news`:
`any(keyword in text for keyword in self.keywords_blacklist)`. -/
def isBlacklisted (n : News) : Bool :=
  keywords_blacklist.any (fun keyword => pyIn keyword (newsText n))

/-- Loop body of `NewsFilter.filter_news` for one item: drop blacklisted
items, then drop `exclude_keywords` matches (Python truthiness: `None`
and `[]` both skip that check, modelled as the empty list), then keep
only `keywords` matches when `keywords` is truthy, else keep. -/
def keepNews (keywords exclude_keywords : List String) (n : News) : Bool :=
  if isBlacklisted n then false
  else if !exclude_keywords.isEmpty &&
      exclude_keywords.any (fun keyword => pyIn (pyLower keyword) (newsText n)) then false
  else if !keywords.isEmpty then
    keywords.any (fun keyword => pyIn (pyLower keyword) (newsText n))
  else true

/-- `NewsFilter.filter_news(news_list, keywords, exclude_keywords)`. -/
def filter_news (news_list : List News) (keywords exclude_keywords : List String) : List News :=
  news_list.filter (keepNews keywords exclude_keywords)

/-- Deduplication key of `NewsFilter.remove_duplicates`:
the title, lowered and then stripped. -/
def dedupKey (n : News) : String := pyStrip (pyLower n.title)

/-- Loop of `NewsFilter.remove_duplicates` with the `seen_titles` set
(modelled as the list of keys added so far). -/
def removeDupAux : List News → List String → List News
  | [], _ => []
  | n :: rest, seen =>
    if dedupKey n ∈ seen then removeDupAux rest seen
    else n :: removeDupAux rest (dedupKey n :: seen)

/-- `NewsFilter.remove_duplicates(news_list)`. -/
def remove_duplicates (news_list : List News) : List News :=
  removeDupAux news_list []

theorem removeDupAux_sublist (l : List News) :
    ∀ seen, List.Sublist (removeDupAux l seen) l := by
  induction l with
  | nil => intro seen; simp [removeDupAux]
  | cons a rest ih =>
    intro seen
    by_cases h : dedupKey a ∈ seen
    · simp only [removeDupAux, if_pos h]
      exact List.Sublist.cons a (ih seen)
    · simp only [removeDupAux, if_neg h]
      exact List.Sublist.cons₂ a (ih _)

theorem removeDupAux_key_notMem (l : List News) :
    ∀ seen n, n ∈ removeDupAux l seen → dedupKey n ∉ seen := by
  induction l with
  | nil => intro seen n h; simp [removeDupAux] at h
  | cons a rest ih =>
    intro seen n h
    by_cases hk : dedupKey a ∈ seen
    · exact ih seen n (by simpa only [removeDupAux, if_pos hk] using h)
    · simp only [removeDupAux, if_neg hk, List.mem_cons] at h
      rcases h with rfl | h
      · exact hk
      · intro hmem
        exact ih _ n h (List.mem_cons_of_mem _ hmem)

theorem removeDupAux_pairwise (l : List News) :
    ∀ seen, (removeDupAux l seen).Pairwise (fun x y => dedupKey x ≠ dedupKey y) := by
  induction l with
  | nil => intro seen; simp [removeDupAux]
  | cons a rest ih =>
    intro seen
    by_cases hk : dedupKey a ∈ seen
    · simp only [removeDupAux, if_pos hk]
      exact ih seen
    · simp only [removeDupAux, if_neg hk]
      refine List.Pairwise.cons ?_ (ih _)
      intro b hb he
      exact removeDupAux_key_notMem rest _ b hb
        (by rw [← he]; exact List.mem_cons_self _ _)

/-- Claim C4: `remove_duplicates` returns a list no longer than its
input, keeps items in first-seen input order (it is a subsequence of
the input), and no two returned items share the normalized
(lowered, stripped) title key. -/
theorem remove_duplicates_spec (news_list : List News) :
    (remove_duplicates news_list).length ≤ news_list.length ∧
    (remove_duplicates news_list).Sublist news_list ∧
    (remove_duplicates news_list).Pairwise (fun a b => dedupKey a ≠ dedupKey b) :=
  ⟨(removeDupAux_sublist news_list []).length_le,
   removeDupAux_sublist news_list [],
   removeDupAux_pairwise news_list []⟩

/-- Claim C10: for every input list and every choice of include/exclude
keyword arguments, the output of `filter_news` is a subsequence of the
input (so each output item occurs in the input, at most as often, and
relative input order is preserved). -/
theorem filter_news_sublist (news_list : List News) (keywords exclude_keywords : List String) :
    (filter_news news_list keywords exclude_keywords).Sublist news_list :=
  List.filter_sublist news_list

/-- Claim C5: no item whose blacklist text (lowered title and lowered
description joined by a space, as the code concatenates them) contains
a promotional blacklist term ever appears in the output of
`filter_news`, for any include/exclude keyword lists. -/
theorem filter_news_blacklist (news_list : List News) (keywords exclude_keywords : List String)
    (n : News) (h : n ∈ filter_news news_list keywords exclude_keywords) :
    isBlacklisted n = false := by
  have hk : keepNews keywords exclude_keywords n = true := (List.mem_filter.mp h).2
  cases hb : isBlacklisted n with
  | false => rfl
  | true =>
    unfold keepNews at hk
    rw [if_pos hb] at hk
    exact absurd hk Bool.false_ne_true

/-- A concrete item containing no blacklisted term. -/
def cleanNews : News :=
  { title := "hello world", description := "greetings", url := "", date := "",
    source := "", language := "" }

/-- Witness for C5: the concrete clean item survives the filter and is
indeed not blacklisted. -/
theorem filter_news_blacklist_witness : isBlacklisted cleanNews = false :=
  filter_news_blacklist [cleanNews] [] [] cleanNews (by
    have h : filter_news [cleanNews] [] [] = [cleanNews] := by decide
    rw [h]
    exact List.mem_singleton_self cleanNews)

/-! ## RSS item parsing (`NewsFetcher._parse_rss_item`) -/

/-- An XML element as seen by `_parse_rss_item`: its `.text` (which may
be absent) and its Python truthiness (an `xml.etree` `Element` is truthy
iff it has child elements), which drives the `find(...) or find(...)`
chains. -/
structure XmlElem where
  text : Option String
  truthy : Bool
deriving DecidableEq, Repr

/-- The RSS `<item>` element, as the fixed set of children that
`_parse_rss_item` looks up with `find`; `none` means the child is
absent. -/
structure RssElem where
  title : Option XmlElem
  description : Option XmlElem
  summary : Option XmlElem
  link : Option XmlElem
  pubDate : Option XmlElem
  published : Option XmlElem
  dcDate : Option XmlElem
deriving DecidableEq, Repr

/-- The idiom `elem.text.strip() if elem.text else None`: an absent or
empty (`""` is falsy) text yields `None`, otherwise the stripped text. -/
def textStrip (e : XmlElem) : Option String :=
  match e.text with
  | none => none
  | some t => if t = "" then none else some (pyStrip t)

/-- Python `find(a) or find(b)`: the first operand wins only when it is
a truthy element; `None` and child-less elements fall through. -/
def elemOr (a b : Option XmlElem) : Option XmlElem :=
  match a with
  | some e => if e.truthy then some e else b
  | none => b

/-- `NewsFetcher._parse_rss_item(item, namespaces, feed_url, language)`.
The external library helpers are parameters: `parseDate` stands for
`self._parse_date` (which consults `datetime.now()` for missing or
unparseable dates), `extractDomain` for `self._extract_domain`, and
`urljoinF` for `urllib.parse.urljoin`. -/
def parse_rss_item (item : RssElem) (feed_url language : String)
    (parseDate : Option String → String) (extractDomain : String → String)
    (urljoinF : String → String → String) : Option News :=
  let title : Option String :=
    match item.title with
    | some e => textStrip e
    | none => none
  let description : Option String :=
    match elemOr item.description item.summary with
    | some e => textStrip e
    | none => none
  let url0 : Option String :=
    match item.link with
    | some e => textStrip e
    | none => none
  let url : Option String :=
    match url0 with
    | some u => if u ≠ "" ∧ ¬pyStartswith u "http" then some (urljoinF feed_url u) else some u
    | none => none
  let date_str : Option String :=
    match elemOr (elemOr item.pubDate item.published) item.dcDate with
    | some e => textStrip e
    | none => none
  match title with
  | none => none
  | some t =>
    if t = "" then none
    else some
      { title := t
        description := description.getD ""
        url := url.getD ""
        date := parseDate date_str
        source := extractDomain feed_url
        language := language }

/-- The reading of a missing title in the claim: the title element is missing, or its
text is absent, or its text is empty/whitespace (strips to the empty string). -/
def hasNoTitle (item : RssElem) : Bool :=
  match item.title with
  | none => true
  | some e =>
    match e.text with
    | none => true
    | some t => pyStrip t = ""

theorem pyStrip_empty : pyStrip "" = "" := rfl

/-- Claim C8: an RSS element without a usable title (missing element,
missing text, or empty/whitespace text) parses to no item, and every
item `parse_rss_item` does produce has a non-empty title — for every
feed URL, language and every behaviour of the date/domain/url helpers. -/
theorem parse_rss_item_title_spec (item : RssElem) (feed_url language : String)
    (parseDate : Option String → String) (extractDomain : String → String)
    (urljoinF : String → String → String) :
    (hasNoTitle item = true →
      parse_rss_item item feed_url language parseDate extractDomain urljoinF = none) ∧
    (∀ r, parse_rss_item item feed_url language parseDate extractDomain urljoinF = some r →
      r.title ≠ "") := by
  obtain ⟨titleE, dE, sE, lE, pE, pbE, dcE⟩ := item
  cases titleE with
  | none =>
    exact ⟨fun _ => by simp [parse_rss_item], fun r hr => by simp [parse_rss_item] at hr⟩
  | some e =>
    obtain ⟨textO, tr⟩ := e
    cases textO with
    | none =>
      exact ⟨fun _ => by simp [parse_rss_item, textStrip],
        fun r hr => by simp [parse_rss_item, textStrip] at hr⟩
    | some t =>
      by_cases ht : t = ""
      · exact ⟨fun _ => by simp [parse_rss_item, textStrip, ht],
          fun r hr => by simp [parse_rss_item, textStrip, ht] at hr⟩
      · by_cases hs : pyStrip t = ""
        · exact ⟨fun _ => by simp [parse_rss_item, textStrip, ht, hs],
            fun r hr => by simp [parse_rss_item, textStrip, ht, hs] at hr⟩
        · constructor
          · intro hnt
            exact absurd (of_decide_eq_true (by simpa [hasNoTitle] using hnt)) hs
          · intro r hr
            simp only [parse_rss_item, textStrip, if_neg ht, if_neg hs] at hr
            injection hr with h
            rw [← h]
            exact hs

/-- A concrete RSS element with no `<title>` child at all. -/
def noTitleElem : RssElem :=
  { title := none, description := none, summary := none, link := none,
    pubDate := none, published := none, dcDate := none }

/-- A concrete RSS element with title text `"T"`. -/
def goodTitleElem : RssElem :=
  { title := some { text := some "T", truthy := false }, description := none,
    summary := none, link := none, pubDate := none, published := none, dcDate := none }

/-- Witness for C8: the titleless element parses to nothing, and the
concrete parsed item of the titled element has a non-empty title. -/
theorem parse_rss_item_title_spec_witness :
    parse_rss_item noTitleElem "https://feed" "ru" (fun _ => "d") (fun _ => "s")
        (fun _ u => u) = none ∧
    ({ title := "T", description := "", url := "", date := "d", source := "s",
       language := "ru" } : News).title ≠ "" := by
  constructor
  · exact (parse_rss_item_title_spec noTitleElem "https://feed" "ru" (fun _ => "d")
      (fun _ => "s") (fun _ u => u)).1 (by decide)
  · exact (parse_rss_item_title_spec goodTitleElem "https://feed" "ru" (fun _ => "d")
      (fun _ => "s") (fun _ u => u)).2
      { title := "T", description := "", url := "", date := "d", source := "s",
        language := "ru" } (by decide)

/-! ## User profiles and the aggregation pipeline (`bot.py`) -/

/-- The per-user profile dict created by `NewsAggregatorBot.get_user_data`
(the `created_at` bookkeeping string and the optional `saved` list are
not relevant to any claim and are omitted). -/
structure UserData where
  topics : List String
  keywords : List String
  digest_enabled : Bool
  digest_time : String
  digest_frequency : String
  sources : List String
  language : String
  region : String
deriving DecidableEq, Repr

/-- `NewsFetcher.get_news_by_topics(topics, language, limit)`.  The two
network fetchers it calls are parameters: `fetchRss` stands for
`self.fetch_rss_news(language, limit)` and `fetchApi` for
`self.fetch_api_news(language, country, limit)` (called with the fixed
country ru). -/
def get_news_by_topics (fetchRss : String → Nat → List News)
    (fetchApi : String → String → Nat → List News)
    (topics : List String) (language : String) (limit : Nat) : List News :=
  let all_news := fetchRss language limit ++ fetchApi language "ru" limit
  let filtered_news := all_news.filter (fun news =>
    topics.any (fun topic =>
      pyIn (pyLower topic) (pyLower news.title) ||
      pyIn (pyLower topic) (pyLower news.description)))
  filtered_news.take limit

/-- `NewsAggregatorBot.fetch_news(user_data)`.  The three source
adapters are parameters (`fetch_rss_news`, `fetch_api_news`,
`fetch_mediastack_news`), so the theorem below holds for whatever the
adapters return. -/
def fetch_news (fetchRss : String → Nat → List News)
    (fetchApi fetchMediastack : String → String → Nat → List News)
    (user_data : UserData) : List News :=
  let all1 := if "rss" ∈ user_data.sources then fetchRss user_data.language 10 else []
  let all2 := if "api" ∈ user_data.sources then
      all1 ++ fetchApi user_data.language user_data.region 10 ++
        fetchMediastack user_data.language user_data.region 10
    else all1
  let all3 := if user_data.topics ≠ [] then
      all2 ++ get_news_by_topics fetchRss fetchApi user_data.topics user_data.language 15
    else all2
  let unique_news := remove_duplicates all3
  let final_news := filter_news unique_news [] []
  final_news.take 10

/-- Claim C6: `fetch_news` returns at most 10 items for every user
profile and for every behaviour of the enabled source adapters. -/
theorem fetch_news_le_ten (fetchRss : String → Nat → List News)
    (fetchApi fetchMediastack : String → String → Nat → List News)
    (user_data : UserData) :
    (fetch_news fetchRss fetchApi fetchMediastack user_data).length ≤ 10 := by
  simp only [fetch_news]
  exact List.length_take_le _ _

/-! ## Per-topic search grouping (`NewsAggregatorBot.search_command`) -/

/-- The grouping loop of `search_command`: for each topic `t` (in
declaration order) it runs `filter_news(all_news, keywords=[t])` over
the same pool and, when the result is non-empty, emits the group
`(t, filtered[:5])`. -/
def searchTopicGroups (all_news : List News) (topics : List String) :
    List (String × List News) :=
  topics.filterMap (fun t =>
    let filtered := filter_news all_news [t] []
    if filtered = [] then none else some (t, filtered.take 5))

theorem searchTopicGroups_map_fst (pl : List News) (topics : List String) :
    (searchTopicGroups pl topics).map Prod.fst
      = topics.filter (fun t => !(filter_news pl [t] []).isEmpty) := by
  induction topics with
  | nil => rfl
  | cons t ts ih =>
    by_cases h : filter_news pl [t] [] = []
    · simp only [searchTopicGroups, List.filterMap_cons, List.filter_cons, h] at ih ⊢
      simpa using ih
    · simp only [searchTopicGroups, List.filterMap_cons, List.filter_cons,
        if_neg h] at ih ⊢
      rw [if_pos (by simp [List.isEmpty_iff, h])]
      simpa using ih

theorem searchTopicGroups_mem (pl : List News) (topics : List String) :
    ∀ p ∈ searchTopicGroups pl topics,
      p.2 = (filter_news pl [p.1] []).take 5 ∧ p.2.length ≤ 5 ∧ p.2 ≠ [] := by
  induction topics with
  | nil => intro p hp; simp [searchTopicGroups] at hp
  | cons t ts ih =>
    intro p hp
    by_cases h : filter_news pl [t] [] = []
    · refine ih p ?_
      simpa only [searchTopicGroups, List.filterMap_cons, h, if_pos rfl] using hp
    · simp only [searchTopicGroups, List.filterMap_cons, if_neg h, List.mem_cons] at hp
      rcases hp with rfl | hp
      · refine ⟨rfl, List.length_take_le _ _, ?_⟩
        cases hf : filter_news pl [t] [] with
        | nil => exact absurd hf h
        | cons a l => simp [hf]
      · exact ih p hp

/-- Claim C9: searching with topics over the deduplicated pool runs the
filter once per topic over that same pool; the group names are exactly
the topics with a non-empty filter result, in declaration order (topics
with no matches produce no group); and every emitted group is the first
5 filter results for its topic, hence non-empty and of length ≤ 5. -/
theorem searchTopicGroups_spec (pool : List News) (topics : List String) :
    ((searchTopicGroups (remove_duplicates pool) topics).map Prod.fst
      = topics.filter (fun t => !(filter_news (remove_duplicates pool) [t] []).isEmpty)) ∧
    ∀ p ∈ searchTopicGroups (remove_duplicates pool) topics,
      p.2 = (filter_news (remove_duplicates pool) [p.1] []).take 5 ∧
      p.2.length ≤ 5 ∧ p.2 ≠ [] :=
  ⟨searchTopicGroups_map_fst (remove_duplicates pool) topics,
   searchTopicGroups_mem (remove_duplicates pool) topics⟩

/-- A concrete item matching the topic `"alpha"`. -/
def alphaNews : News :=
  { title := "alpha report", description := "", url := "", date := "",
    source := "", language := "" }

/-- Witness for C9: with pool `[alphaNews]` and topics
`["alpha", "zzz"]`, only `"alpha"` produces a group, and that group has
at most 5 items. -/
theorem searchTopicGroups_spec_witness :
    (searchTopicGroups (remove_duplicates [alphaNews]) ["alpha", "zzz"]).map Prod.fst
      = ["alpha"] ∧
    ("alpha", (filter_news (remove_duplicates [alphaNews]) ["alpha"] []).take 5).2.length ≤ 5 := by
  have h := searchTopicGroups_spec [alphaNews] ["alpha", "zzz"]
  constructor
  · rw [h.1]; decide
  · exact (h.2 ("alpha", (filter_news (remove_duplicates [alphaNews]) ["alpha"] []).take 5)
      (by decide)).2.1

/-! ## Wall-clock model and `DigestScheduler.get_next_digest_time` -/

/-- A Python `datetime` value, reduced to what the scheduler uses:
`day` is an absolute day index whose residue mod 7 is the Python
`weekday()` (day 0 is a Monday), and `tod` is the time of day in
microseconds since midnight. -/
structure PyDateTime where
  day : Int
  tod : Int
deriving DecidableEq, Repr

/-- Python `datetime.weekday()`: Monday = 0 (Python `%` on a positive
modulus agrees with `Int.emod`). -/
def pyWeekday (dt : PyDateTime) : Int := dt.day % 7

/-- `dt.replace(hour=h, minute=m, second=0, microsecond=0)`. -/
def replaceHM (dt : PyDateTime) (h m : Int) : PyDateTime :=
  ⟨dt.day, (h * 60 + m) * 60 * 1000000⟩

/-- `dt + timedelta(days=k)`. -/
def addDays (dt : PyDateTime) (k : Int) : PyDateTime := ⟨dt.day + k, dt.tod⟩

/-- Python `datetime` comparison `a <= b`. -/
def pyDtLe (a b : PyDateTime) : Bool :=
  decide (a.day < b.day ∨ (a.day = b.day ∧ a.tod ≤ b.tod))

/-- Python `datetime` comparison `a < b`. -/
def pyDtLt (a b : PyDateTime) : Bool :=
  decide (a.day < b.day ∨ (a.day = b.day ∧ a.tod < b.tod))

/-- Splitting a character list on a separator, as Python `str.split(sep)`
does (adjacent separators produce empty parts). -/
def pySplit (sep : Char) : List Char → List (List Char)
  | [] => [[]]
  | c :: rest =>
    if c = sep then [] :: pySplit sep rest
    else
      match pySplit sep rest with
      | p :: ps => (c :: p) :: ps
      | [] => [[c]]

/-- Python `s.split(':')`. -/
def pySplitColon (s : String) : List String :=
  (pySplit ':' s.data).map (fun cs => ⟨cs⟩)

/-- The digits-only body of Python `int(...)` (underscore grouping and
non-ASCII digits are not used by this code base and are not modelled). -/
def digitsToNat (cs : List Char) : Option Nat :=
  if cs = [] then none
  else if cs.all (fun c => c.isDigit) then
    some (cs.foldl (fun a c => a * 10 + (c.toNat - 48)) 0)
  else none

/-- Python `int(s)`: surrounding whitespace stripped, optional sign,
then decimal digits; `none` models the `ValueError`. -/
def pyInt (s : String) : Option Int :=
  match (pyStrip s).data with
  | '-' :: rest => (digitsToNat rest).map (fun n => -(n : Int))
  | '+' :: rest => (digitsToNat rest).map (fun n => (n : Int))
  | cs => (digitsToNat cs).map (fun n => (n : Int))

/-- The hour/minute extraction of `get_next_digest_time`:
`int(digest_time.split(':')[0])` and `int(digest_time.split(':')[1])`
(an absent second part raises `IndexError`), followed by the range
validation that `datetime.replace` performs; any raised exception is
caught and yields the error result, modelled as `none`. -/
def parseHM0 (s : String) : Option (Int × Int) :=
  match pySplitColon s with
  | p0 :: p1 :: _ =>
    match pyInt p0, pyInt p1 with
    | some h, some m =>
      if 0 ≤ h ∧ h ≤ 23 ∧ 0 ≤ m ∧ m ≤ 59 then some (h, m) else none
    | _, _ => none
  | _ => none

/-- The per-frequency branches of `get_next_digest_time` once hour and
minute are in hand.  An unknown frequency leaves `next_time` unbound in
the Python code (a `NameError` caught by the handler), modelled as
`none`. -/
def nextTimeForFreq (now : PyDateTime) (frequency : String) (h m : Int) : Option PyDateTime :=
  if frequency = "daily" then
    let next_time := replaceHM now h m
    some (if pyDtLe next_time now then addDays next_time 1 else next_time)
  else if frequency = "weekly" then
    let days_ahead : Int := 7 - pyWeekday now
    some (replaceHM (addDays now (if days_ahead = 7 then 0 else days_ahead)) h m)
  else if frequency = "weekdays" then
    let days_ahead : Int := 1 - pyWeekday now
    some (replaceHM (addDays now (if days_ahead ≤ 0 then days_ahead + 5 else days_ahead)) h m)
  else none

/-- The `next_time` computed by `DigestScheduler.get_next_digest_time`
for an enabled user (the Python function then formats it with
`strftime`; the error string paths are `none`). -/
def nextDigestDatetime (now : PyDateTime) (frequency digest_time : String) : Option PyDateTime :=
  (parseHM0 digest_time).bind (fun hm => nextTimeForFreq now frequency hm.1 hm.2)

/-- Claim C1 evaluated on the code: for frequency `weekdays` computed on
a Saturday (day 5, 12:00), `get_next_digest_time` yields the next day —
a Sunday (weekday 6), not the following Monday at the configured time
that the claim requires. -/
theorem weekdays_saturday_gives_sunday :
    pyWeekday ⟨5, 43200000000⟩ = 5 ∧
    nextDigestDatetime ⟨5, 43200000000⟩ "weekdays" "09:00" = some ⟨6, 32400000000⟩ ∧
    pyWeekday ⟨6, 32400000000⟩ = 6 := by
  decide

/-- Claim C3 evaluated on the code: for frequency `weekly` computed on a
Monday at 10:00 with digest time `09:00`, the weekly branch maps
`days_ahead` 7 to 0 and never compares against `now`, so the returned
`next_fire` is the same Monday 09:00 — strictly in the past. -/
theorem weekly_monday_past_fire :
    pyWeekday ⟨7, 36000000000⟩ = 0 ∧
    nextDigestDatetime ⟨7, 36000000000⟩ "weekly" "09:00" = some ⟨7, 32400000000⟩ ∧
    pyDtLt ⟨7, 32400000000⟩ ⟨7, 36000000000⟩ = true := by
  decide

/-- Claim C7: for frequency `weekly` with digest time `09:00`, computed
on any Wednesday (weekday 2) at 10:00, the result is five days later —
the following Monday — at 09:00. -/
theorem weekly_wednesday_next_monday (now : PyDateTime)
    (hw : pyWeekday now = 2) (ht : now.tod = 36000000000) :
    nextDigestDatetime now "weekly" "09:00" = some ⟨now.day + 5, 32400000000⟩ ∧
    pyWeekday ⟨now.day + 5, 32400000000⟩ = 0 := by
  constructor
  · have hp : parseHM0 "09:00" = some (9, 0) := by decide
    unfold nextDigestDatetime
    rw [hp]
    show nextTimeForFreq now "weekly" 9 0 = _
    unfold nextTimeForFreq
    rw [if_neg (by decide), if_pos rfl, hw]
    norm_num [replaceHM, addDays]
  · have hww : pyWeekday ⟨now.day + 5, 32400000000⟩ = (now.day + 5) % 7 := rfl
    rw [hww]
    unfold pyWeekday at hw
    omega

/-- Witness for C7 at the concrete Wednesday day 2, 10:00. -/
theorem weekly_wednesday_next_monday_witness :
    nextDigestDatetime ⟨2, 36000000000⟩ "weekly" "09:00" = some ⟨7, 32400000000⟩ ∧
    pyWeekday ⟨7, 32400000000⟩ = 0 :=
  weekly_wednesday_next_monday ⟨2, 36000000000⟩ (by decide) rfl

/-! ## The job registry and `DigestScheduler.schedule_user_digest` -/

/-- One job in the global registry of the schedule library: it carries
the per-user tag built from the user id and is bound to one recurring
slot (every day, every Monday, ...). -/
structure Job where
  user_id : Nat
  slot : String
deriving DecidableEq, Repr

/-- `DigestScheduler._remove_user_jobs(user_id)`: clears every job
carrying the tag of this user from the registry. -/
def removeUserJobs (jobs : List Job) (user_id : Nat) : List Job :=
  jobs.filter (fun j => j.user_id ≠ user_id)

/-- The slots registered per frequency by `schedule_user_digest`
(`daily` → every day; `weekly` → every Monday; `weekdays` → Monday
through Friday; any other value registers nothing). -/
def slotsFor (frequency : String) : List String :=
  if frequency = "daily" then ["daily"]
  else if frequency = "weekly" then ["monday"]
  else if frequency = "weekdays" then
    ["monday", "tuesday", "wednesday", "thursday", "friday"]
  else []

/-- `parseHM0` restricted to exactly two parts:
`hour, minute = map(int, digest_time.split(':'))` raises on any other
arity, and `dt_time(hour, minute)` validates the ranges.  (The stricter
format check that the at method of the schedule library performs later is not
modelled; it never fires for the well-formed times used below.) -/
def parseDigestHM (s : String) : Option (Int × Int) :=
  match pySplitColon s with
  | [p0, p1] =>
    match pyInt p0, pyInt p1 with
    | some h, some m =>
      if 0 ≤ h ∧ h ≤ 23 ∧ 0 ≤ m ∧ m ≤ 59 then some (h, m) else none
    | _, _ => none
  | _ => none

/-- `DigestScheduler.schedule_user_digest(user_id, user_data)` acting on
the job registry: a disabled user returns before anything happens; a
time-parse failure is caught before the removal line runs; otherwise old
jobs for the user are cleared and the slots of the frequency are added. -/
def schedule_user_digest (jobs : List Job) (user_id : Nat) (user_data : UserData) : List Job :=
  if ¬user_data.digest_enabled then jobs
  else
    match parseDigestHM user_data.digest_time with
    | none => jobs
    | some _ =>
      removeUserJobs jobs user_id ++ (slotsFor user_data.digest_frequency).map
        (fun s => ⟨user_id, s⟩)

/-- The bot state that `update_user_data` touches: the users dict and
the schedule registry. -/
structure BotState where
  users : List (Nat × UserData)
  jobs : List Job
deriving Repr

def lookupUser : List (Nat × UserData) → Nat → Option UserData
  | [], _ => none
  | (k, v) :: rest, uid => if k = uid then some v else lookupUser rest uid

def setUser (users : List (Nat × UserData)) (uid : Nat) (d : UserData) :
    List (Nat × UserData) :=
  users.map (fun kv => if kv.1 = uid then (kv.1, d) else kv)

/-- `NewsAggregatorBot.update_user_data(user_id, data)` for an existing
user: the partial dict `data` becomes the merge function `upd`, and
`touchesScheduling` records whether `data` contains one of
`digest_enabled` / `digest_time` / `digest_frequency` (in which case the
merged profile is passed to `schedule_user_digest`). -/
def update_user_data (st : BotState) (user_id : Nat) (upd : UserData → UserData)
    (touchesScheduling : Bool) : BotState :=
  match lookupUser st.users user_id with
  | none => st
  | some ud =>
    let merged := upd ud
    { users := setUser st.users user_id merged
      jobs := if touchesScheduling then schedule_user_digest st.jobs user_id merged
        else st.jobs }

/-- A user profile with digests enabled, daily at 09:00. -/
def enabledDailyUser : UserData :=
  { topics := [], keywords := [], digest_enabled := true, digest_time := "09:00",
    digest_frequency := "daily", sources := ["rss"], language := "ru", region := "ru" }

/-- Claim C2 evaluated on the code: scheduling the enabled daily digest
of user 1 registers one job tagged with the user; applying the profile
update that sets digest_enabled to False then leaves that job in the registry
untouched, because `schedule_user_digest` returns before
`_remove_user_jobs` when digests are disabled — so a job for the user
remains, contradicting the claim. -/
theorem disable_digest_leaves_jobs :
    schedule_user_digest [] 1 enabledDailyUser = [⟨1, "daily"⟩] ∧
    (update_user_data
        { users := [(1, enabledDailyUser)], jobs := schedule_user_digest [] 1 enabledDailyUser }
        1 (fun ud => { ud with digest_enabled := false }) true).jobs
      = [⟨1, "daily"⟩] := by
  constructor
  · decide
  · rfl

end NewsBot
